import Mathlib

/-!
Verification of the dm2 Incremental Data View Engine.

Shallow embedding of src/src/components/Table/Table.js:
the DataView component callbacks (loadMore, isItemLoaded) and the
DataManager class (event bus, action registry, instrument registry,
mode switching, editor lifecycle, destroy and reload).

JavaScript Map objects are embedded as association lists with
Map.get and Map.set semantics; Set objects of callbacks are embedded
as duplicate-free lists preserving insertion order.  Functions are
embedded as opaque Nat tokens; a handler body is supplied separately
as a map from token to an Except result so that a throwing handler
can be expressed.
-/

set_option maxRecDepth 4000

namespace DM2

/-- Embedding of JavaScript Map.prototype.get over an association list:
returns the value of the first (in a well-formed map, the only) entry
with the given key. -/
def lookupA {β : Type} : List (String × β) → String → Option β
  | [], _ => none
  | p :: t, k => if p.1 == k then some p.2 else lookupA t k

/-- Embedding of JavaScript Map.prototype.set: replaces the value of an
existing entry in place (keeping its position), otherwise appends a new
entry at the end, matching Map insertion-order semantics. -/
def setAssoc {β : Type} : List (String × β) → String → β → List (String × β)
  | [], k, v => [(k, v)]
  | p :: t, k, v => if p.1 == k then (k, v) :: t else p :: setAssoc t k v

/-- Well-formedness of an embedded Map: keys are pairwise distinct. -/
def keysNodup {β : Type} (m : List (String × β)) : Prop :=
  (m.map Prod.fst).Nodup

namespace DataView

/-- State of the paginated data store as observed by the DataView
component: the two fields read by loadMore. -/
structure DataStoreView where
  hasNextPage : Bool
  loading : Bool

/-- loadMore from Table.js lines 57 to 61.  The result records whether
view.dataStore.fetch was called: the source returns early exactly when
(not hasNextPage) and loading both hold, and otherwise calls fetch. -/
def loadMore (s : DataStoreView) : Bool :=
  if !s.hasNextPage && s.loading then false else true

/-- Modelled from the spec: the Data Store fetch operation (spec section
4.1, implemented outside src/) sets loading to true while the request is
in flight.  Only this transition is needed to describe the state between
two consecutive loadMore calls. -/
def fetchStart (s : DataStoreView) : DataStoreView :=
  { s with loading := true }

/-- Two loadMore calls in rapid succession starting from state s: the
first fetch, if issued, is still in flight when the second call runs.
Returns the number of fetch requests issued. -/
def loadMoreTwice (s : DataStoreView) : Nat :=
  let first := loadMore s
  let s2 := if first then fetchStart s else s
  let second := loadMore s2
  (cond first 1 0) + (cond second 1 0)

/-- isItemLoaded from Table.js lines 63 to 71: rowExists is the
truthiness of data[index] (records are objects, hence truthy exactly
when the index is populated), and the result is
(not hasNextPage) or rowExists.  It is a pure function of its
arguments: the embedding returns a Bool and no state. -/
def isItemLoaded (hasNextPage : Bool) (data : List Nat) (index : Nat) : Bool :=
  let rowExists := (data[index]?).isSome
  !hasNextPage || rowExists

end DataView

namespace DataManager

/-- getEventCallbacks from Table.js lines 540 to 542:
this.callbacks.get(eventName) or a fresh empty Set.  The fresh Set is
not stored in the map. -/
def getEventCallbacks (callbacks : List (String × List Nat)) (eventName : String) :
    List Nat :=
  (lookupA callbacks eventName).getD []

/-- Embedding of Set.prototype.add: appends if absent, keeps insertion
order, re-adding an existing element does not move it. -/
def setAdd (s : List Nat) (c : Nat) : List Nat :=
  if s.contains c then s else s ++ [c]

/-- on from Table.js lines 476 to 480 (on is a reserved token in Lean,
hence the name onEvent): fetch (or lazily create) the callback set for
the event, add the callback, store the set. -/
def onEvent (callbacks : List (String × List Nat)) (eventName : String) (cb : Nat) :
    List (String × List Nat) :=
  setAssoc callbacks eventName (setAdd (getEventCallbacks callbacks eventName) cb)

/-- Effect of off on the callback set itself: Set.delete for a given
callback, Set.clear when none is given. -/
def offSet (s : List Nat) : Option Nat → List Nat
  | some c => s.filter (fun x => !(x == c))
  | none => []

/-- off from Table.js lines 488 to 495.  The Set returned by
getEventCallbacks aliases the map entry when the event has one, so
mutating it updates the map; when the event has no entry the fresh Set
is mutated and discarded, leaving the map unchanged.  The embedding
therefore updates the matching entry in place, if any. -/
def off (callbacks : List (String × List Nat)) (eventName : String) (cb : Option Nat) :
    List (String × List Nat) :=
  match callbacks with
  | [] => []
  | p :: t =>
    if p.1 == eventName then (p.1, offSet p.2 cb) :: t
    else p :: off t eventName cb

/-- hasHandler from Table.js lines 501 to 503: size of the callback set
is positive. -/
def hasHandler (callbacks : List (String × List Nat)) (eventName : String) : Bool :=
  decide (0 < (getEventCallbacks callbacks eventName).length)

/-- Embedding of Set.prototype.forEach over handler tokens, where run
gives each handler body (applied to the event arguments): handlers are
visited in insertion order; a handler that throws aborts the iteration
and the exception propagates.  Returns the list of handlers actually
invoked and the escaped exception, if any. -/
def forEachCalls (run : Nat → Except String Unit) : List Nat → List Nat × Option String
  | [] => ([], none)
  | h :: t =>
    match run h with
    | Except.ok _ =>
      let r := forEachCalls run t
      (h :: r.1, r.2)
    | Except.error e => ([h], some e)

/-- invoke from Table.js lines 530 to 534: forEach over the callback set
of the event, applying each callback to the arguments (captured in run). -/
def invoke (run : Nat → Except String Unit) (callbacks : List (String × List Nat))
    (eventName : String) : List Nat × Option String :=
  forEachCalls run (getEventCallbacks callbacks eventName)

/-- The DataManager instance state relevant to the claims: mode string,
the private callbacks map, the private actions map (values are the
action object and callback, as opaque tokens), and whether the app is
mounted (initApp ran after the last destroy). -/
structure State where
  mode : String
  callbacks : List (String × List Nat)
  actions : List (String × Nat × Nat)
  mounted : Bool

/-- JavaScript truthiness of the destructured action id: undefined and
the empty string are falsy. -/
def idTruthy : Option String → Bool
  | none => false
  | some s => !(s == "")

/-- addAction from Table.js lines 433 to 440: throw when the id is
falsy (before any mutation, so the registry is unchanged in that case),
otherwise actions.set(id, (action, callback)).  The propagation to the
app store (store.addActions) is an external side effect and carries no
registry state. -/
def addAction (dm : State) (id : Option String) (act cb : Nat) : Except String State :=
  if !(idTruthy id) then Except.error "Action must provide a unique ID"
  else Except.ok { dm with actions := setAssoc dm.actions (id.getD "") (act, cb) }

/-- getAction from Table.js lines 447 to 449: the callback component of
the registered entry, if any. -/
def getAction (dm : State) (id : String) : Option Nat :=
  (lookupA dm.actions id).map (fun p => p.2)

/-- installActions from Table.js lines 451 to 455: re-register every
entry of the actions map through addAction. -/
def installActions (dm : State) : Except String State :=
  dm.actions.foldlM (fun acc p => addAction acc (some p.1) p.2.1 p.2.2) dm

/-- destroy from Table.js lines 601 to 609: tears down the app store and
unmounts the UI (mounted becomes false); when detachCallbacks is true
every callback set is cleared and then the map itself is cleared. -/
def destroy (detachCallbacks : Bool) (dm : State) : State :=
  { dm with
    mounted := false,
    callbacks := if detachCallbacks then [] else dm.callbacks }

/-- reload from Table.js lines 611 to 615: destroy(false), then initApp
(which rebuilds the store and invokes the ready event on the preserved
callbacks map), then installActions.  The second component is the list
of handlers the ready event is delivered to. -/
def reload (dm : State) : Except String (State × List Nat) :=
  let dm1 := destroy false dm
  let dm2 := { dm1 with mounted := true }
  let ready := getEventCallbacks dm2.callbacks "ready"
  (installActions dm2).map (fun dm3 => (dm3, ready))

/-- setMode from Table.js lines 517 to 523: remember whether the mode
differs, assign it unconditionally, and invoke modeChanged with the new
mode exactly when it differed.  The second component is the list of
events fired (name and payload). -/
def setMode (mode : String) (dm : State) : State × List (String × String) :=
  let modeChanged := !(mode == dm.mode)
  let dm2 := { dm with mode := mode }
  (dm2, if modeChanged then [("modeChanged", mode)] else [])

/-- Result of registerInstrument: the updated instance map, whether a
warning was logged, and how many times the initializer was invoked. -/
structure RegInstrOut where
  instruments : List (String × Nat)
  warned : Bool
  initCalls : Nat

/-- registerInstrument from Table.js lines 457 to 469: when the name is
truthy in the built-in instruments module (builtins), log a warning and
return without touching the instance map or calling the initializer;
otherwise call the initializer once with the collaborator set (store,
observer, inject: embedded as the token collab) and store the instance.
console.warn never throws, so no exception escapes either branch. -/
def registerInstrument (builtins : String → Bool) (collab : Nat)
    (instrs : List (String × Nat)) (name : String) (init : Nat → Nat) : RegInstrOut :=
  if builtins name then
    { instruments := instrs, warned := true, initCalls := 0 }
  else
    { instruments := setAssoc instrs name (init collab), warned := false, initCalls := 1 }

/-- A task as read by startLabeling: its id and the id of its last
annotation, if any. -/
structure Task where
  id : Nat
  lastAnn : Option Nat

/-- A selected annotation as read by startLabeling. -/
structure Ann where
  id : Nat

/-- The embedded editor wrapper as read by startLabeling: its currently
loaded task, if any. -/
structure LSF where
  task : Option Task

/-- The first guard of startLabeling (Table.js line 582): truthiness of
this.lsf?.task and task and id equality. -/
def sameTaskGuard : Option LSF → Option Task → Bool
  | some l, some t =>
    match l.task with
    | some lt => lt.id == t.id
    | none => false
  | _, _ => false

/-- this.lsf.task?.id as an optional value (this.lsf known non-null at
its use site). -/
def loadedTaskId (lsf : Option LSF) : Option Nat :=
  (lsf.bind LSF.task).map Task.id

/-- Outcome of startLabeling: no editor request, exactly one
loadTask(taskId, annotationId) request, or the TypeError the source
raises when it dereferences task.id with no task selected. -/
inductive LoadResult where
  | noop : LoadResult
  | load : Nat → Option Nat → LoadResult
  | typeError : LoadResult

/-- startLabeling from Table.js lines 573 to 594: return immediately
when the editor already holds the selected task; otherwise, outside
labelstream mode and with an editor present whose loaded task id
differs from the selected one (strict inequality on possibly undefined
ids) or with a selected annotation, issue loadTask(task.id, annotation
id defaulting to the last annotation id of the task). -/
def startLabeling (mode : String) (lsf : Option LSF) (task : Option Task)
    (ann : Option Ann) : LoadResult :=
  let isLabelStream := mode == "labelstream"
  if sameTaskGuard lsf task then LoadResult.noop
  else if !isLabelStream && lsf.isSome &&
      (!(loadedTaskId lsf == task.map Task.id) || ann.isSome) then
    match task with
    | some t =>
      LoadResult.load t.id (match ann with | some a => some a.id | none => t.lastAnn)
    | none => LoadResult.typeError
  else LoadResult.noop

end DataManager

/-- Concrete DataManager state with one registered action, used as the
explicit input of the C3 counterexample. -/
def dmDup : DataManager.State :=
  DataManager.State.mk "explorer" [] [("x", (1, 2))] true

/-- Concrete callbacks map with two handlers registered for event e, in
this order, used by the C2 counterexample and witness. -/
def cbsTwo : List (String × List Nat) := [("e", [1, 2])]

/-- Handler bodies where handler 1 throws and every other handler
returns normally. -/
def runThrow1 : Nat → Except String Unit :=
  fun n => if n == 1 then Except.error "boom" else Except.ok ()

/-- Handler bodies where handler 2 throws and every other handler
returns normally. -/
def runThrow2 : Nat → Except String Unit :=
  fun n => if n == 2 then Except.error "bang" else Except.ok ()

/-- Handler bodies where every handler returns normally. -/
def runOk : Nat → Except String Unit :=
  fun _ => Except.ok ()

/-- A built-in instrument table containing exactly the reserved name
columns, used by the C9 witness. -/
def builtinsCols : String → Bool := fun n => n == "columns"

/-- Concrete DataManager state with one ready subscription and one
registered action, used by the C4 witness. -/
def dmW : DataManager.State :=
  DataManager.State.mk "explorer" [("ready", [1])] [("x", (5, 6))] true

/- ------------------------------------------------------------------ -/
/- Helper lemmas about the Map embedding.                              -/
/- ------------------------------------------------------------------ -/

theorem lookupA_setAssoc {β : Type} (m : List (String × β)) (k : String) (v : β) :
    lookupA (setAssoc m k v) k = some v := by
  induction m with
  | nil => simp [setAssoc, lookupA]
  | cons p t ih =>
    by_cases h : p.1 == k
    · simp [setAssoc, lookupA, h]
    · simp [setAssoc, lookupA, h, ih]

theorem setAssoc_self {β : Type} (m : List (String × β)) (k : String) (v : β)
    (hnd : keysNodup m) (hm : (k, v) ∈ m) : setAssoc m k v = m := by
  induction m with
  | nil => cases hm
  | cons p t ih =>
    have h1 : p.1 ∉ t.map Prod.fst ∧ (t.map Prod.fst).Nodup := by
      simpa [keysNodup, List.nodup_cons] using hnd
    rcases List.mem_cons.mp hm with hpv | hmt
    · rw [← hpv]
      simp [setAssoc]
    · have hk : ¬ (p.1 == k) = true := by
        intro h
        have hkmem : k ∈ t.map Prod.fst := List.mem_map.mpr ⟨(k, v), hmt, rfl⟩
        have : p.1 = k := by simpa using h
        exact h1.1 (this ▸ hkmem)
      simp [setAssoc, hk, ih h1.2 hmt]

theorem off_unknown (cbs : List (String × List Nat)) (name : String) (cb : Option Nat)
    (h : lookupA cbs name = none) : DataManager.off cbs name cb = cbs := by
  induction cbs with
  | nil => rfl
  | cons p t ih =>
    by_cases hp : p.1 == name
    · simp [lookupA, hp] at h
    · simp only [lookupA, hp, if_false] at h
      simp [DataManager.off, hp, ih h]

theorem forEachCalls_all_ok (run : Nat → Except String Unit) (l : List Nat)
    (h : ∀ x ∈ l, (run x).isOk = true) :
    DataManager.forEachCalls run l = (l, none) := by
  induction l with
  | nil => rfl
  | cons a t ih =>
    have ha := h a (List.mem_cons_self a t)
    have ht : DataManager.forEachCalls run t = (t, none) :=
      ih (fun x hx => h x (List.mem_cons_of_mem a hx))
    cases hr : run a with
    | ok u => simp [DataManager.forEachCalls, hr, ht]
    | error e => simp [hr, Except.isOk, Except.toBool] at ha

theorem forEachCalls_stops (run : Nat → Except String Unit) (hd : Nat)
    (post : List Nat) (hbad : (run hd).isOk = false) :
    ∀ pre : List Nat, (∀ g ∈ pre, (run g).isOk = true) →
      ∃ e, DataManager.forEachCalls run (pre ++ hd :: post) = (pre ++ [hd], some e) := by
  intro pre
  induction pre with
  | nil =>
    intro _
    cases hr : run hd with
    | ok u => simp [hr, Except.isOk, Except.toBool] at hbad
    | error e => exact ⟨e, by simp [DataManager.forEachCalls, hr]⟩
  | cons g t ih =>
    intro hok
    have hg := hok g (List.mem_cons_self g t)
    obtain ⟨e, he⟩ := ih (fun x hx => hok x (List.mem_cons_of_mem g hx))
    cases hr : run g with
    | ok u =>
      exact ⟨e, by simp [DataManager.forEachCalls, hr, he]⟩
    | error e2 => simp [hr, Except.isOk, Except.toBool] at hg

theorem isSome_getElem (l : List Nat) (i : Nat) :
    (l[i]?).isSome = decide (i < l.length) := by
  induction l generalizing i with
  | nil => simp
  | cons a t ih =>
    cases i with
    | zero => simp
    | succ n => simpa using ih n

theorem installActions_ok (dm : DataManager.State)
    (hnd : keysNodup dm.actions) (hk : ∀ p ∈ dm.actions, p.1 ≠ "") :
    DataManager.installActions dm = Except.ok dm := by
  have main : ∀ (l : List (String × Nat × Nat)) (acc : DataManager.State),
      keysNodup acc.actions → (∀ p ∈ l, p ∈ acc.actions ∧ p.1 ≠ "") →
      l.foldlM (fun a p => DataManager.addAction a (some p.1) p.2.1 p.2.2) acc =
        Except.ok acc := by
    intro l
    induction l with
    | nil => intro acc _ _; rfl
    | cons p t ih =>
      intro acc hnd2 hmem
      have hp := hmem p (List.mem_cons_self p t)
      have htru : DataManager.idTruthy (some p.1) = true := by
        simp [DataManager.idTruthy]
        exact hp.2
      have hpmem : (p.1, p.2.1, p.2.2) ∈ acc.actions := hp.1
      have hset : setAssoc acc.actions p.1 (p.2.1, p.2.2) = acc.actions :=
        setAssoc_self acc.actions p.1 (p.2.1, p.2.2) hnd2 hpmem
      have hstep : DataManager.addAction acc (some p.1) p.2.1 p.2.2 = Except.ok acc := by
        simp [DataManager.addAction, htru, hset]
      calc (p :: t).foldlM
            (fun a q => DataManager.addAction a (some q.1) q.2.1 q.2.2) acc
          = (DataManager.addAction acc (some p.1) p.2.1 p.2.2) >>= fun b =>
              t.foldlM (fun a q => DataManager.addAction a (some q.1) q.2.1 q.2.2) b := by
            simp [List.foldlM_cons]
        _ = t.foldlM (fun a q => DataManager.addAction a (some q.1) q.2.1 q.2.2) acc := by
            rw [hstep]; rfl
        _ = Except.ok acc := ih acc hnd2 (fun q hq => hmem q (List.mem_cons_of_mem p hq))
  exact main dm.actions dm hnd (fun p hp => ⟨hp, hk p hp⟩)

/- ------------------------------------------------------------------ -/
/- Claim theorems.                                                     -/
/- ------------------------------------------------------------------ -/

/-- C1: the claim is refuted by the source.  The guard in Table.js line
58 is (not hasNextPage) and loading, so loadMore does call
dataStore.fetch while a fetch is in flight (hasNextPage true, loading
true), calls fetch at end of data when idle (hasNextPage false, loading
false), and two loadMore calls in rapid succession around one in-flight
fetch issue two fetch requests, not one.  The claimed behaviour would
require the guard hasNextPage and not loading. -/
theorem C1_loadMore_guard_bug :
    DataView.loadMore (DataView.DataStoreView.mk true true) = true
  ∧ DataView.loadMore (DataView.DataStoreView.mk false false) = true
  ∧ DataView.loadMoreTwice (DataView.DataStoreView.mk true false) = 2 :=
  ⟨rfl, rfl, rfl⟩

/-- C2 counterexample: with handlers 1 and 2 registered for event e in
this order and handler 1 throwing, invoke delivers only to handler 1
and the exception escapes; handler 2, although currently registered, is
never invoked.  This refutes the claimed per-handler fault isolation. -/
theorem C2_invoke_throwing_handler_cx :
    2 ∈ DataManager.getEventCallbacks cbsTwo "e"
  ∧ DataManager.invoke runThrow1 cbsTwo "e" = ([1], some "boom") :=
  ⟨by decide, rfl⟩

/-- C2 amended: invoke delivers the arguments to the currently
registered handlers of the event in registration order, but a handler
that throws aborts the Set.forEach: every handler is reached only when
no handler throws, and in general delivery stops at the first throwing
handler, whose exception propagates out of invoke. -/
theorem C2_invoke_order_and_abort (run : Nat → Except String Unit)
    (cbs : List (String × List Nat)) (name : String) :
    ((∀ h ∈ DataManager.getEventCallbacks cbs name, (run h).isOk = true) →
      DataManager.invoke run cbs name = (DataManager.getEventCallbacks cbs name, none))
  ∧ (∀ pre hd post, DataManager.getEventCallbacks cbs name = pre ++ hd :: post →
      (∀ g ∈ pre, (run g).isOk = true) → (run hd).isOk = false →
      ∃ e, DataManager.invoke run cbs name = (pre ++ [hd], some e)) := by
  constructor
  · intro h
    exact forEachCalls_all_ok run _ h
  · intro pre hd post hsplit hok hbad
    have hstop := forEachCalls_stops run hd post hbad pre hok
    simpa [DataManager.invoke, hsplit] using hstop

/-- C2 witness: both parts of the amended theorem applied at concrete
inputs: with no throwing handler both handlers 1 and 2 receive the
event; with handler 2 throwing after handler 1, delivery is 1 then 2
and stops there with an escaped exception. -/
theorem C2_invoke_order_and_abort_witness :
    (∀ h ∈ DataManager.getEventCallbacks cbsTwo "e", (runOk h).isOk = true)
  ∧ DataManager.invoke runOk cbsTwo "e" = (DataManager.getEventCallbacks cbsTwo "e", none)
  ∧ DataManager.getEventCallbacks cbsTwo "e" = [1] ++ 2 :: []
  ∧ (∀ g ∈ ([1] : List Nat), (runThrow2 g).isOk = true)
  ∧ (runThrow2 2).isOk = false
  ∧ ∃ e, DataManager.invoke runThrow2 cbsTwo "e" = ([1] ++ [2], some e) :=
  ⟨by decide,
   (C2_invoke_order_and_abort runOk cbsTwo "e").1 (by decide),
   rfl,
   by decide,
   by decide,
   (C2_invoke_order_and_abort runThrow2 cbsTwo "e").2 [1] 2 [] rfl (by decide) (by decide)⟩

/-- C3 counterexample: with action x already registered (callback 2),
addAction with the same id x succeeds (no error is raised) and getAction
afterwards returns the new callback 4: Map.set silently overwrites, so
last-write-wins is exactly what the source does. -/
theorem C3_addAction_duplicate_cx :
    DataManager.addAction dmDup (some "x") 3 4 =
      Except.ok (DataManager.State.mk "explorer" [] [("x", (3, 4))] true)
  ∧ DataManager.getAction (DataManager.State.mk "explorer" [] [("x", (3, 4))] true) "x"
      = some 4 :=
  ⟨rfl, rfl⟩

/-- C3 amended: addAction throws only when the supplied id is falsy;
registering an action whose id is already present in the registry does
not fail: it succeeds and silently overwrites the existing entry, so a
subsequent getAction returns the newly supplied callback. -/
theorem C3_addAction_last_write_wins (dm : DataManager.State) (s : String)
    (a0 c0 a c : Nat) (hs : s ≠ "") (_hdup : lookupA dm.actions s = some (a0, c0)) :
    ∃ dm2, DataManager.addAction dm (some s) a c = Except.ok dm2
      ∧ DataManager.getAction dm2 s = some c := by
  have htru : DataManager.idTruthy (some s) = true := by
    simp [DataManager.idTruthy]
    exact hs
  refine ⟨{ dm with actions := setAssoc dm.actions s (a, c) }, ?_, ?_⟩
  · simp [DataManager.addAction, htru]
  · simp [DataManager.getAction, lookupA_setAssoc]

/-- C3 witness: the amended theorem applied to the concrete registry
that already maps x to callback 2. -/
theorem C3_addAction_last_write_wins_witness :
    ("x" : String) ≠ ""
  ∧ lookupA dmDup.actions "x" = some (1, 2)
  ∧ ∃ dm2, DataManager.addAction dmDup (some "x") 3 4 = Except.ok dm2
      ∧ DataManager.getAction dm2 "x" = some 4 :=
  ⟨by decide, rfl, C3_addAction_last_write_wins dmDup "x" 1 2 3 4 (by decide) rfl⟩

/-- C4: destroy(true) empties the subscription map (every event name
has no handlers afterwards); destroy(false) leaves the subscription map
unchanged; reload, which calls destroy(false), preserves the map, so
the ready event fired by the re-initialization is delivered to exactly
the handlers registered before the reload, and every previously
registered action is still registered (installActions re-registers each
entry of the well-formed registry onto itself). -/
theorem C4_destroy_reload (dm : DataManager.State) (name id : String)
    (hnd : keysNodup dm.actions) (hk : ∀ p ∈ dm.actions, p.1 ≠ "") :
    DataManager.getEventCallbacks (DataManager.destroy true dm).callbacks name = []
  ∧ (DataManager.destroy false dm).callbacks = dm.callbacks
  ∧ DataManager.reload dm =
      Except.ok ({ dm with mounted := true },
        DataManager.getEventCallbacks dm.callbacks "ready")
  ∧ DataManager.getAction { dm with mounted := true } id = DataManager.getAction dm id := by
  refine ⟨rfl, rfl, ?_, rfl⟩
  have h2 : DataManager.installActions { dm with mounted := true } =
      Except.ok { dm with mounted := true } :=
    installActions_ok _ hnd hk
  simp [DataManager.reload, DataManager.destroy, h2, Except.map]

/-- C4 witness: the theorem applied to a concrete state with a ready
subscription and one action. -/
theorem C4_destroy_reload_witness :
    keysNodup dmW.actions
  ∧ (∀ p ∈ dmW.actions, p.1 ≠ "")
  ∧ (DataManager.getEventCallbacks (DataManager.destroy true dmW).callbacks "ready" = []
      ∧ (DataManager.destroy false dmW).callbacks = dmW.callbacks
      ∧ DataManager.reload dmW =
          Except.ok ({ dmW with mounted := true },
            DataManager.getEventCallbacks dmW.callbacks "ready")
      ∧ DataManager.getAction { dmW with mounted := true } "x" =
          DataManager.getAction dmW "x") :=
  ⟨by unfold keysNodup; decide, by decide,
   C4_destroy_reload dmW "ready" "x" (by unfold keysNodup; decide) (by decide)⟩

/-- C5: setMode(m) always ends with the stored mode equal to m; it
fires exactly one modeChanged event carrying the new mode when m
differs from the current mode and no event otherwise; and when m equals
the current mode the state is left completely unchanged, so the mode is
updated only when it actually differs. -/
theorem C5_setMode_events (dm : DataManager.State) (m : String) :
    (DataManager.setMode m dm).1.mode = m
  ∧ (DataManager.setMode m dm).2 = (if m = dm.mode then [] else [("modeChanged", m)])
  ∧ (DataManager.setMode dm.mode dm).1 = dm := by
  refine ⟨rfl, ?_, rfl⟩
  by_cases h : m = dm.mode
  · simp [DataManager.setMode, h]
  · simp [DataManager.setMode, h]

/-- C6: when a task is selected, startLabeling is a no-op whenever the
editor already holds a task with the selected task id; otherwise, when
the mode is not labelstream and an editor instance exists whose loaded
task id differs from the selected one or with a selected annotation
override, it issues exactly one loadTask with the selected task id and
with annotation id the selected annotation id when one is selected and
the last annotation id of the task otherwise. -/
theorem C6_startLabeling_idempotent_load (mode : String) (lsf : Option DataManager.LSF)
    (t : DataManager.Task) (ann : Option DataManager.Ann) :
    (DataManager.sameTaskGuard lsf (some t) = true →
      DataManager.startLabeling mode lsf (some t) ann = DataManager.LoadResult.noop)
  ∧ (DataManager.sameTaskGuard lsf (some t) = false → mode ≠ "labelstream" →
      lsf.isSome = true →
      (DataManager.loadedTaskId lsf ≠ some t.id ∨ ann.isSome = true) →
      DataManager.startLabeling mode lsf (some t) ann =
        DataManager.LoadResult.load t.id
          (match ann with | some a => some a.id | none => t.lastAnn)) := by
  constructor
  · intro h
    simp [DataManager.startLabeling, h]
  · intro h1 h2 h3 h4
    have hml : (mode == "labelstream") = false := by
      simpa using h2
    rcases h4 with h4 | h4
    · have hbe : (DataManager.loadedTaskId lsf == some t.id) = false := by
        simpa using h4
      simp [DataManager.startLabeling, h1, hml, h3, hbe]
    · simp [DataManager.startLabeling, h1, hml, h3, h4]

/-- C6 witness: the theorem applied twice at concrete inputs: the
editor already holds task 1 and task 1 is selected (no-op); the editor
holds task 1 while task 2 with last annotation 9 is selected and no
annotation is selected (one loadTask 2 9 request). -/
theorem C6_startLabeling_witness :
    DataManager.sameTaskGuard (some (DataManager.LSF.mk (some (DataManager.Task.mk 1 none))))
        (some (DataManager.Task.mk 1 (some 9))) = true
  ∧ DataManager.startLabeling "explorer"
        (some (DataManager.LSF.mk (some (DataManager.Task.mk 1 none))))
        (some (DataManager.Task.mk 1 (some 9))) none = DataManager.LoadResult.noop
  ∧ DataManager.sameTaskGuard (some (DataManager.LSF.mk (some (DataManager.Task.mk 1 none))))
        (some (DataManager.Task.mk 2 (some 9))) = false
  ∧ DataManager.startLabeling "explorer"
        (some (DataManager.LSF.mk (some (DataManager.Task.mk 1 none))))
        (some (DataManager.Task.mk 2 (some 9))) none =
      DataManager.LoadResult.load 2 (some 9) :=
  ⟨rfl,
   (C6_startLabeling_idempotent_load "explorer"
      (some (DataManager.LSF.mk (some (DataManager.Task.mk 1 none))))
      (DataManager.Task.mk 1 (some 9)) none).1 rfl,
   rfl,
   (C6_startLabeling_idempotent_load "explorer"
      (some (DataManager.LSF.mk (some (DataManager.Task.mk 1 none))))
      (DataManager.Task.mk 2 (some 9)) none).2 rfl (by decide) rfl
     (Or.inl (by decide))⟩

/-- C7: isItemLoaded is a pure function of the data window and the next
page flag (the embedding returns only a Bool), it equals
(not hasNextPage) or (data[index] is defined), hence it is true at
every index below the number of loaded items and false at the index
just past them whenever hasNextPage is true. -/
theorem C7_isItemLoaded_characterization (hnp : Bool) (data : List Nat) (i : Nat) :
    (DataView.isItemLoaded hnp data i = (!hnp || decide (i < data.length)))
  ∧ (∀ j : Fin data.length, DataView.isItemLoaded hnp data j.val = true)
  ∧ DataView.isItemLoaded hnp data data.length = !hnp := by
  refine ⟨?_, ?_, ?_⟩
  · simp [DataView.isItemLoaded, isSome_getElem]
  · intro j
    simp [DataView.isItemLoaded, isSome_getElem, j.isLt]
  · simp [DataView.isItemLoaded, isSome_getElem]

/-- C8: addAction with an absent id throws the configuration error
(before any mutation, so the registry value is not replaced), and a
successful addAction with id x followed by getAction x returns the
registered callback. -/
theorem C8_addAction_missing_id_and_get (dm : DataManager.State) (a c : Nat) :
    DataManager.addAction dm none a c = Except.error "Action must provide a unique ID"
  ∧ DataManager.addAction dm (some "x") a c =
      Except.ok { dm with actions := setAssoc dm.actions "x" (a, c) }
  ∧ DataManager.getAction { dm with actions := setAssoc dm.actions "x" (a, c) } "x"
      = some c := by
  refine ⟨rfl, rfl, ?_⟩
  simp [DataManager.getAction, lookupA_setAssoc]

/-- C9: registerInstrument on a name that is truthy in the built-in
instruments table warns, leaves the instance registry unchanged and
never calls the initializer (and nothing throws); on any other name the
initializer is called exactly once with the collaborator token and the
resulting instance is stored under the name. -/
theorem C9_registerInstrument_guard (builtins : String → Bool) (collab : Nat)
    (instrs : List (String × Nat)) (name : String) (init : Nat → Nat) :
    (builtins name = true →
      DataManager.registerInstrument builtins collab instrs name init =
        DataManager.RegInstrOut.mk instrs true 0)
  ∧ (builtins name = false →
      DataManager.registerInstrument builtins collab instrs name init =
        DataManager.RegInstrOut.mk (setAssoc instrs name (init collab)) false 1
      ∧ lookupA (DataManager.registerInstrument builtins collab instrs name init).instruments
          name = some (init collab)) := by
  constructor
  · intro h
    simp [DataManager.registerInstrument, h]
  · intro h
    constructor
    · simp [DataManager.registerInstrument, h]
    · simp [DataManager.registerInstrument, h, lookupA_setAssoc]

/-- C9 witness: the theorem applied with the reserved name columns
(registry untouched, no initializer call) and with the fresh name extra
(instance stored, one initializer call). -/
theorem C9_registerInstrument_witness :
    builtinsCols "columns" = true
  ∧ DataManager.registerInstrument builtinsCols 0 [] "columns" (fun c => c + 1) =
      DataManager.RegInstrOut.mk [] true 0
  ∧ builtinsCols "extra" = false
  ∧ (DataManager.registerInstrument builtinsCols 0 [] "extra" (fun c => c + 1) =
        DataManager.RegInstrOut.mk (setAssoc [] "extra" ((fun c => c + 1) 0)) false 1
      ∧ lookupA (DataManager.registerInstrument builtinsCols 0 [] "extra"
          (fun c => c + 1)).instruments "extra" = some ((fun c => c + 1) 0)) :=
  ⟨rfl,
   (C9_registerInstrument_guard builtinsCols 0 [] "columns" (fun c => c + 1)).1 rfl,
   rfl,
   (C9_registerInstrument_guard builtinsCols 0 [] "extra" (fun c => c + 1)).2 rfl⟩

/-- C10: for an event name with no entry in the subscription map (one
on which on was never called), hasHandler is false, invoke delivers to
no handler and raises nothing, and off, with or without a callback,
leaves the subscription map unchanged: the lookup yields a fresh empty
set that is never stored, and every operation is total. -/
theorem C10_unknown_event_safe (cbs : List (String × List Nat)) (name : String)
    (c : Nat) (run : Nat → Except String Unit) (h : lookupA cbs name = none) :
    DataManager.hasHandler cbs name = false
  ∧ DataManager.invoke run cbs name = ([], none)
  ∧ DataManager.off cbs name (some c) = cbs
  ∧ DataManager.off cbs name none = cbs := by
  have hempty : DataManager.getEventCallbacks cbs name = [] := by
    simp [DataManager.getEventCallbacks, h]
  refine ⟨?_, ?_, off_unknown cbs name (some c) h, off_unknown cbs name none h⟩
  · simp [DataManager.hasHandler, hempty]
  · simp [DataManager.invoke, hempty, DataManager.forEachCalls]

/-- C10 witness: the theorem applied to the concrete map that has an
entry for e only, probed at the unknown name missing. -/
theorem C10_unknown_event_safe_witness :
    lookupA cbsTwo "missing" = none
  ∧ (DataManager.hasHandler cbsTwo "missing" = false
      ∧ DataManager.invoke runOk cbsTwo "missing" = ([], none)
      ∧ DataManager.off cbsTwo "missing" (some 1) = cbsTwo
      ∧ DataManager.off cbsTwo "missing" none = cbsTwo) :=
  ⟨rfl, C10_unknown_event_safe cbsTwo "missing" 1 runOk rfl⟩

end DM2
